import Mathlib

/-!
Shallow embedding of the process-lifecycle manager in
`src-tauri/src/lib.rs` (the `ModelManager` struct, its methods
`scan_models`, `list_models`, `set_loaded`, `clear_loaded`,
`spawn_for_model`, `stop_process`, and the Tauri commands built on them,
in particular `run_prompt`).

Modelling choices, all driven by the Rust source:

* `ModelManager` is embedded field by field: `process : Option Child`,
  `loaded : Option String`, and the `HashMap<String, ModelInfo>` as an
  association list with `HashMap::insert` replace-or-add semantics.
* Filesystem state is passed in explicitly: a directory listing is
  `Option (List (Option DirEntry))` (`None` for a failing `read_dir`,
  inner `None` for an entry the iterator reports as `Err`, which
  `entries.flatten()` silently skips).
* OS effects that the Rust code performs (existence checks during launch
  resolution, the outcome of `Command::spawn`, of `Child::kill` and of
  the `writeln!` into the child's stdin) are supplied by a `SpawnEnv`
  oracle, so every definition stays a pure function of its inputs.
* `window.emit` calls become an explicit list of `Event`s returned by
  each operation; the background reader thread becomes `readerEvents`
  (the events the thread emits, in order) and `readerCompleteState`
  (what the thread does to the manager state when it finishes).
* Machine strings are Lean `String`s; all error messages are the exact
  strings of the source.
-/

/-- A directory entry is a regular file, a directory, or something else
(the Rust code tests `p.is_file()` and then `p.is_dir()` and skips the
rest). -/
inductive EntryKind
  | file
  | dir
  | other
deriving DecidableEq, Repr

/-- One entry of the `./models` directory listing, by name. -/
structure DirEntry where
  name : String
  kind : EntryKind
deriving DecidableEq, Repr

/-- Mirror of the Rust `ModelInfo` struct (the serializable model summary). -/
structure ModelInfo where
  id : String
  name : String
  path : String
  loaded : Bool
deriving DecidableEq, Repr

/-- The stored child process handle. `std::process::Child` has
`stdin : Option<ChildStdin>`, which is `Some` only when the command was
configured with `Stdio::piped()` for stdin; `spawn_for_model` configures
stdout and stderr as piped but never stdin, and it hands the taken
stdout/stderr readers to the background thread, so the stdin slot is the
only part of the stored handle the rest of the code reads. -/
structure Child where
  stdin : Option Unit
deriving DecidableEq, Repr

/-- Mirror of the Rust `ModelManager` struct: the optional running child
process, the id of the model considered loaded, and the discovered
models (`HashMap<String, ModelInfo>`, here an association list). -/
structure ModelManager where
  process : Option Child
  loaded : Option String
  models : List (String × ModelInfo)
deriving DecidableEq, Repr

/-- A `window.emit` call: `"model-output"` with a line of text, or
`"model-status"` with a `{"running": b}` payload. -/
inductive Event
  | output (line : String)
  | status (running : Bool)
deriving DecidableEq, Repr

/-- The OS-effect oracle for one command invocation: the filesystem
existence checks done during launch resolution, and the outcomes of the
`spawn`, `kill` and `writeln!` system calls (`none` means success,
`some e` the error's message text). -/
structure SpawnEnv where
  isWindows : Bool
  pathIsDir : String → Bool
  runShExists : String → Bool
  runBatExists : String → Bool
  localExeExists : Bool
  spawnErr : Option String
  writeErr : Option String

/-- Result of one manager operation: the `Result<(), String>` returned
to the caller, the manager state afterwards, the `window.emit` calls
made synchronously by the operation, and the texts written to the
child's stdin. -/
structure CmdOutcome where
  result : Except String Unit
  state : ModelManager
  events : List Event
  writes : List String

/-- `HashMap::insert`: replace the value under an existing key,
otherwise add the binding. -/
def hmInsert (m : List (String × ModelInfo)) (k : String) (v : ModelInfo) :
    List (String × ModelInfo) :=
  if m.any (fun p => p.1 = k) then m.map (fun p => if p.1 = k then (k, v) else p)
  else m ++ [(k, v)]

/-- `HashMap::get`. -/
def lookupAL (m : List (String × ModelInfo)) (k : String) : Option ModelInfo :=
  (m.find? (fun p => decide (p.1 = k))).map Prod.snd

/-- `HashMap::contains_key`. -/
def containsKey (m : List (String × ModelInfo)) (k : String) : Bool :=
  m.any (fun p => p.1 = k)

/-- Splits a file name at its final dot following `std::path::Path`
semantics: no dot, or a name that begins with the only dot, has no
extension. Returns `(file_stem, extension)` data when an extension
exists. -/
def lastDotSplit (cs : List Char) : Option (List Char × List Char) :=
  let r := cs.reverse
  let extRev := r.takeWhile (fun c => c ≠ '.')
  match r.dropWhile (fun c => c ≠ '.') with
  | [] => none
  | _ :: stemRev => if stemRev = [] then none else some (stemRev.reverse, extRev.reverse)

/-- `Path::extension`, on a plain file name. -/
def rustExtension (name : String) : Option String :=
  (lastDotSplit name.toList).map (fun p => String.mk p.2)

/-- `Path::file_stem`, on a plain file name. -/
def rustFileStem (name : String) : String :=
  match lastDotSplit name.toList with
  | none => name
  | some p => String.mk p.1

/-- `entry.path().to_string_lossy()` for an entry of `./models`. -/
def entryPath (name : String) : String :=
  "./models/" ++ name

/-- The extension allow-list of `scan_models`:
`ext == "gguf" || ext == "bin" || ext == "pt"`. -/
def modelExtAllowed (ext : String) : Bool :=
  ext = "gguf" || ext = "bin" || ext = "pt"

/-- The body of `scan_models`'s per-entry loop: a regular file with an
allowed extension inserts a record keyed by its file stem; a directory
inserts a record keyed by its name; anything else is skipped. Every
inserted record has `loaded := false`. -/
def scanEntry (m : List (String × ModelInfo)) (e : DirEntry) :
    List (String × ModelInfo) :=
  match e.kind with
  | EntryKind.file =>
    match rustExtension e.name with
    | some ext =>
      if modelExtAllowed ext then
        hmInsert m (rustFileStem e.name)
          { id := rustFileStem e.name, name := e.name,
            path := entryPath e.name, loaded := false }
      else m
    | none => m
  | EntryKind.dir =>
    hmInsert m e.name
      { id := e.name, name := e.name, path := entryPath e.name, loaded := false }
  | EntryKind.other => m

/-- `ModelManager::scan_models`: clear the map, then, if `read_dir`
succeeded, fold the surviving (`Ok`) entries into it. Only the `models`
field is written; `process` and `loaded` are untouched. -/
def scan_models (fs : Option (List (Option DirEntry))) (st : ModelManager) :
    ModelManager :=
  match fs with
  | none => { st with models := [] }
  | some entries =>
    { st with models := (entries.filterMap (fun x => x)).foldl scanEntry [] }

/-- `ModelManager::list_models`: the values of the map. -/
def list_models (st : ModelManager) : List ModelInfo :=
  st.models.map (fun p => p.2)

/-- `ModelManager::set_loaded`: only when the id is a key of the map,
flip that record's `loaded` flag and record the id; otherwise do
nothing. -/
def set_loaded (st : ModelManager) (id : String) : ModelManager :=
  if containsKey st.models id then
    { st with
      models := st.models.map
        (fun p => if p.1 = id then (p.1, { p.2 with loaded := true }) else p),
      loaded := some id }
  else st

/-- `ModelManager::clear_loaded`. -/
def clear_loaded (st : ModelManager) : ModelManager :=
  let withFlag : ModelManager :=
    match st.loaded with
    | some id =>
      { st with
        models := st.models.map
          (fun p => if p.1 = id then (p.1, { p.2 with loaded := false }) else p) }
    | none => st
  { withFlag with loaded := none }

/-- A `std::process::Command` under construction: program, arguments and
which standard streams are configured as piped. Note that stdin is never
configured anywhere in the source. -/
structure SpawnCommand where
  program : String
  args : List String
  stdoutPiped : Bool
  stderrPiped : Bool
deriving DecidableEq, Repr

/-- The `mock_cmd` argument vector of `spawn_for_model` (dev/demo python
mock), per platform, with the exact argument strings of the source. -/
def mock_cmd (isWindows : Bool) : List String :=
  if isWindows then
    ["/C", "python -u -c \"import time; [print('TOKEN', i) or time.sleep(0.12) for i in range(200)]\""]
  else
    ["-c", "python3 -u -c 'import time\nfor i in range(200):\n print(f\"TOKEN {i}\")\n time.sleep(0.12)'\n"]

/-- The ordered launch resolution of `spawn_for_model`: a wrapper script
(`run.sh`, else `run.bat`) inside a model directory, else a local
`llama.exe`, else the python mock (which is always available, so the
result is never `none` in fact; the `Option` mirrors `command_opt`).
The source builds the `run.sh` command with `Command::new("sh")` on both
platforms. The mock branch already pipes stdout and stderr here, as the
source does. -/
def resolveCommand (env : SpawnEnv) (model : ModelInfo) : Option SpawnCommand :=
  let fromScript : Option SpawnCommand :=
    if env.pathIsDir model.path then
      if env.runShExists model.path then
        some { program := "sh", args := [model.path ++ "/run.sh"],
               stdoutPiped := false, stderrPiped := false }
      else if env.runBatExists model.path then
        some { program := "cmd", args := ["/C", model.path ++ "/run.bat"],
               stdoutPiped := false, stderrPiped := false }
      else none
    else none
  match fromScript with
  | some c => some c
  | none =>
    if env.localExeExists then
      some { program := "./src-tauri/bin/llama.exe",
             args := ["-m", model.path, "--stream"],
             stdoutPiped := false, stderrPiped := false }
    else
      some { program := if env.isWindows then "cmd" else "sh",
             args := mock_cmd env.isWindows,
             stdoutPiped := true, stderrPiped := true }

/-- `ModelManager::spawn_for_model`. In order: fail if a process is
already stored; fail if the id is not in the map; resolve a command;
pipe stdout and stderr; spawn. On spawn success the child (with its
stdout/stderr taken by the reader thread and stdin never piped, hence
`none`) is stored and `model-status {running: true}` is emitted; on any
failure the state is returned unchanged. The reader thread's own
behaviour is `readerEvents`/`readerCompleteState` below. -/
def spawn_for_model (env : SpawnEnv) (id : String) (st : ModelManager) :
    CmdOutcome :=
  if st.process.isSome then
    { result := Except.error "A model process is already running",
      state := st, events := [], writes := [] }
  else
    match lookupAL st.models id with
    | none =>
      { result := Except.error ("Model '" ++ id ++ "' not found"),
        state := st, events := [], writes := [] }
    | some model =>
      match resolveCommand env model with
      | some c =>
        let _piped := { c with stdoutPiped := true, stderrPiped := true }
        match env.spawnErr with
        | some e =>
          { result := Except.error ("Failed to spawn child: " ++ e),
            state := st, events := [], writes := [] }
        | none =>
          { result := Except.ok (),
            state := { st with process := some { stdin := none } },
            events := [Event.status true], writes := [] }
      | none =>
        { result := Except.error "No command to run",
          state := st, events := [], writes := [] }

/-- The events emitted by the background reader thread spawned in
`spawn_for_model`, given the lines successfully read from the two
streams (`reader.lines().flatten()` drops erroring lines): every stdout
line, then every stderr line prefixed with `"[ERR] "`, then a single
`model-status {running: false}`. -/
def readerEvents (stdoutLines stderrLines : List String) : List Event :=
  (stdoutLines.map Event.output
    ++ stderrLines.map (fun l => Event.output ("[ERR] " ++ l)))
  ++ [Event.status false]

/-- What the background reader thread does to the manager state when it
finishes: nothing. The closure passed to `thread::spawn` captures only
the cloned window handle and the taken stdout/stderr readers; it holds
no reference to the `ModelManager` (nor to the Tauri state), so the
manager's fields — in particular the `process` slot — are exactly as
they were. -/
def readerCompleteState (st : ModelManager) : ModelManager :=
  st

/-- `ModelManager::stop_process`: `self.process.take()` empties the slot
first; then `kill` (outcome supplied by the oracle) decides the result,
with `wait`'s result ignored. With no stored process the call fails with
`"No running process"` and changes nothing. -/
def stop_process (killErr : Option String) (st : ModelManager) :
    Except String Unit × ModelManager :=
  match st.process with
  | some _ =>
    match killErr with
    | none => (Except.ok (), { st with process := none })
    | some e => (Except.error ("Failed to kill process: " ++ e),
                 { st with process := none })
  | none => (Except.error "No running process", st)

/-- The tail of `run_prompt` reached when there is no stored process or
the stored child has no stdin handle: `model.or(mgr.loaded.clone())`
picks the explicit override first, else the loaded id, and starts that
model; with neither, fail with `"no model available to run prompt"`. -/
def run_prompt_fallback (env : SpawnEnv) (model : Option String)
    (st : ModelManager) : CmdOutcome :=
  match model with
  | some id => spawn_for_model env id st
  | none =>
    match st.loaded with
    | some id => spawn_for_model env id st
    | none =>
      { result := Except.error "no model available to run prompt",
        state := st, events := [], writes := [] }

/-- The `run_prompt` Tauri command: if a child is stored and its stdin
handle exists, `writeln!` the prompt (text plus `"\n"`) into it and
return; otherwise fall through to the start path. -/
def run_prompt (env : SpawnEnv) (prompt : String) (model : Option String)
    (st : ModelManager) : CmdOutcome :=
  match st.process with
  | some child =>
    match child.stdin with
    | some _ =>
      match env.writeErr with
      | some e =>
        { result := Except.error ("failed to write to stdin: " ++ e),
          state := st, events := [], writes := [] }
      | none =>
        { result := Except.ok (), state := st, events := [],
          writes := [prompt ++ "\n"] }
    | none => run_prompt_fallback env model st
  | none => run_prompt_fallback env model st

/-- The `load_model` Tauri command: delegate to `set_loaded`, always
returning `Ok`. -/
def load_model (id : String) (st : ModelManager) :
    Except String Unit × ModelManager :=
  (Except.ok (), set_loaded st id)

/-- The `rescan_models` Tauri command: re-scan, then list. -/
def rescan_models (fs : Option (List (Option DirEntry))) (st : ModelManager) :
    List ModelInfo × ModelManager :=
  (list_models (scan_models fs st), scan_models fs st)

/-- `ModelManager::new`: empty slots, then an initial scan. -/
def ModelManager.new (fs : Option (List (Option DirEntry))) : ModelManager :=
  scan_models fs { process := none, loaded := none, models := [] }

/-! Concrete fixtures: the models directory of the spec's scenarios
(`alpha.gguf` and a subdirectory `beta/`), a benign OS oracle (no
wrapper script, no local binary, all system calls succeed), and the
states reached by `load_model("alpha")` followed by a successful
`start_model("alpha")`. -/

/-- Directory listing holding `alpha.gguf` and the subdirectory `beta/`. -/
def fs0 : Option (List (Option DirEntry)) :=
  some [some { name := "alpha.gguf", kind := EntryKind.file },
        some { name := "beta", kind := EntryKind.dir }]

/-- Oracle for a dev machine: no wrapper script, no local binary (so the
python mock is resolved), and every system call succeeds. -/
def env0 : SpawnEnv :=
  { isWindows := false, pathIsDir := fun _ => false,
    runShExists := fun _ => false, runBatExists := fun _ => false,
    localExeExists := false, spawnErr := none, writeErr := none }

/-- Same oracle but `Command::spawn` fails with message `"boom"`. -/
def envSpawnFail : SpawnEnv :=
  { env0 with spawnErr := some "boom" }

/-- The manager right after `ModelManager::new()` over `fs0`. -/
def st0 : ModelManager := ModelManager.new fs0

/-- `st0` after `load_model("alpha")`. -/
def stL : ModelManager := set_loaded st0 "alpha"

/-- `stL` after a successful `start_model("alpha")`: a worker is running. -/
def stR : ModelManager := (spawn_for_model env0 "alpha" stL).state

/-! Helper lemmas: distinguishing the source's error strings, and basic
facts about `spawn_for_model`, `hmInsert` and `scanEntry`. -/

/-- Two strings whose first characters differ are different. -/
theorem string_head_ne {s t : String} (h : s.data.head? ≠ t.data.head?) : s ≠ t :=
  fun he => h (by rw [he])

/-- The not-found error is never the already-running error. -/
theorem model_not_found_ne_already (id : String) :
    ("Model '" ++ id ++ "' not found" : String) ≠ "A model process is already running" := by
  apply string_head_ne
  rw [String.data_append, String.data_append]
  exact (by decide : (some 'M' : Option Char) ≠ some 'A')

/-- The spawn-failure error is never the already-running error. -/
theorem spawn_failed_ne_already (e : String) :
    ("Failed to spawn child: " ++ e : String) ≠ "A model process is already running" := by
  apply string_head_ne
  rw [String.data_append]
  exact (by decide : (some 'F' : Option Char) ≠ some 'A')

/-- The kill-failure error is never the not-running error. -/
theorem kill_failed_ne_no_running (e : String) :
    ("Failed to kill process: " ++ e : String) ≠ "No running process" := by
  apply string_head_ne
  rw [String.data_append]
  exact (by decide : (some 'F' : Option Char) ≠ some 'N')

/-- `spawn_for_model` never writes to a child's stdin. -/
theorem spawn_writes_nil (env : SpawnEnv) (id : String) (st : ModelManager) :
    (spawn_for_model env id st).writes = [] := by
  unfold spawn_for_model
  split
  · rfl
  · split
    · rfl
    · split
      · split
        · rfl
        · rfl
      · rfl

/-- Any failing `spawn_for_model` call leaves the state untouched and
emits nothing. -/
theorem spawn_state_of_not_ok (env : SpawnEnv) (id : String) (st : ModelManager)
    (hf : (spawn_for_model env id st).result ≠ Except.ok ()) :
    (spawn_for_model env id st).state = st ∧ (spawn_for_model env id st).events = [] := by
  unfold spawn_for_model at hf ⊢
  split
  · exact ⟨rfl, rfl⟩
  · split
    · exact ⟨rfl, rfl⟩
    · split
      · split
        · exact ⟨rfl, rfl⟩
        · rename_i hrun hm hc hsp
          exact absurd (by split at hf <;> simp_all) hf
      · exact ⟨rfl, rfl⟩

/-- With no stored process, `spawn_for_model` cannot fail with the
already-running error: its result is success, a not-found error, a
spawn-failure error or the (unreachable) no-command error. -/
theorem spawn_result_not_already (env : SpawnEnv) (id : String) (st : ModelManager)
    (h : st.process = none) :
    (spawn_for_model env id st).result ≠ Except.error "A model process is already running" := by
  unfold spawn_for_model
  rw [h]
  simp only [Option.isSome_none, Bool.false_eq_true, if_false]
  split
  · intro hc
    exact model_not_found_ne_already id (Except.error.inj hc)
  · split
    · split
      · intro hc
        rename_i e _
        exact spawn_failed_ne_already e (Except.error.inj hc)
      · intro hc
        exact Except.noConfusion hc
    · intro hc
      have hs := Except.error.inj hc
      exact absurd hs (by decide)

/-- `scan_models` writes only the `models` field. -/
theorem scan_models_preserves (fs : Option (List (Option DirEntry))) (st : ModelManager) :
    (scan_models fs st).process = st.process ∧ (scan_models fs st).loaded = st.loaded := by
  cases fs with
  | none => exact ⟨rfl, rfl⟩
  | some entries => exact ⟨rfl, rfl⟩

/-- `set_loaded` never touches the process slot. -/
theorem set_loaded_preserves_process (st : ModelManager) (id : String) :
    (set_loaded st id).process = st.process := by
  unfold set_loaded
  split
  · rfl
  · rfl

/-- When the id is a catalog key, `set_loaded` records it. -/
theorem set_loaded_loaded (st : ModelManager) (id : String)
    (h : containsKey st.models id = true) :
    (set_loaded st id).loaded = some id := by
  unfold set_loaded
  rw [h]
  rfl

/-- Inserting a binding makes its key present. -/
theorem containsKey_hmInsert_self (m : List (String × ModelInfo)) (k : String) (v : ModelInfo) :
    containsKey (hmInsert m k v) k = true := by
  unfold containsKey hmInsert
  split
  · rename_i hany
    rw [List.any_eq_true] at hany ⊢
    rcases hany with ⟨p, hp, hpk⟩
    exact ⟨(k, v), List.mem_map.mpr ⟨p, hp, by simp_all⟩, by simp⟩
  · rw [List.any_eq_true]
    exact ⟨(k, v), List.mem_append.mpr (Or.inr (List.mem_singleton.mpr rfl)), by simp⟩

/-- Inserting a binding keeps every present key present. -/
theorem containsKey_hmInsert_of (m : List (String × ModelInfo)) (k k2 : String)
    (v : ModelInfo) (h : containsKey m k = true) :
    containsKey (hmInsert m k2 v) k = true := by
  unfold containsKey at h ⊢
  unfold hmInsert
  split
  · rw [List.any_eq_true] at h ⊢
    rcases h with ⟨p, hp, hpk⟩
    by_cases hpk2 : p.1 = k2
    · refine ⟨(k2, v), List.mem_map.mpr ⟨p, hp, by simp [hpk2]⟩, ?_⟩
      simp at hpk
      simp [← hpk2, hpk]
    · exact ⟨p, List.mem_map.mpr ⟨p, hp, by simp [hpk2]⟩, hpk⟩
  · rw [List.any_eq_true] at h ⊢
    rcases h with ⟨p, hp, hpk⟩
    exact ⟨p, List.mem_append.mpr (Or.inl hp), hpk⟩

/-- One scan step keeps every present key present. -/
theorem containsKey_scanEntry_of (m : List (String × ModelInfo)) (e : DirEntry)
    (k : String) (h : containsKey m k = true) :
    containsKey (scanEntry m e) k = true := by
  unfold scanEntry
  split
  · split
    · split
      · exact containsKey_hmInsert_of _ _ _ _ h
      · exact h
    · exact h
  · exact containsKey_hmInsert_of _ _ _ _ h
  · exact h

/-- Folding further entries keeps every present key present. -/
theorem containsKey_foldl_of (l : List DirEntry) (m : List (String × ModelInfo))
    (k : String) (h : containsKey m k = true) :
    containsKey (l.foldl scanEntry m) k = true := by
  induction l generalizing m with
  | nil => exact h
  | cons a t ih => exact ih _ (containsKey_scanEntry_of _ _ _ h)

/-- A key inserted by some entry of the fold is present afterwards. -/
theorem containsKey_foldl_of_mem (l : List DirEntry) (m : List (String × ModelInfo))
    (e : DirEntry) (k : String) (he : e ∈ l)
    (hself : ∀ m2, containsKey (scanEntry m2 e) k = true) :
    containsKey (l.foldl scanEntry m) k = true := by
  induction l generalizing m with
  | nil => cases he
  | cons a t ih =>
    rcases List.mem_cons.mp he with rfl | ht
    · exact containsKey_foldl_of t _ k (hself m)
    · exact ih _ ht

/-- A regular file with an allowed extension puts its stem in the map. -/
theorem scanEntry_contains_file (m : List (String × ModelInfo)) (e : DirEntry)
    (ext : String) (h1 : e.kind = EntryKind.file)
    (h2 : rustExtension e.name = some ext) (h3 : modelExtAllowed ext = true) :
    containsKey (scanEntry m e) (rustFileStem e.name) = true := by
  unfold scanEntry
  rw [h1, h2]
  simp only [h3, if_true]
  exact containsKey_hmInsert_self _ _ _

/-- A directory entry puts its name in the map. -/
theorem scanEntry_contains_dir (m : List (String × ModelInfo)) (e : DirEntry)
    (h1 : e.kind = EntryKind.dir) :
    containsKey (scanEntry m e) e.name = true := by
  unfold scanEntry
  rw [h1]
  exact containsKey_hmInsert_self _ _ _

/-- Inserting a cleared record preserves the all-records-cleared invariant. -/
theorem hmInsert_loaded_false (m : List (String × ModelInfo)) (k : String)
    (v : ModelInfo) (hv : v.loaded = false)
    (h : ∀ p ∈ m, (Prod.snd p).loaded = false) :
    ∀ p ∈ hmInsert m k v, (Prod.snd p).loaded = false := by
  unfold hmInsert
  split
  · intro p hp
    rcases List.mem_map.mp hp with ⟨q, hq, hqp⟩
    by_cases hqk : q.1 = k
    · rw [← hqp]
      simp only [hqk, if_true]
      exact hv
    · rw [← hqp]
      simp only [hqk, if_false]
      exact h q hq
  · intro p hp
    rcases List.mem_append.mp hp with hp1 | hp2
    · exact h p hp1
    · rw [List.mem_singleton.mp hp2]
      exact hv

/-- One scan step preserves the all-records-cleared invariant. -/
theorem scanEntry_loaded_false (m : List (String × ModelInfo)) (e : DirEntry)
    (h : ∀ p ∈ m, (Prod.snd p).loaded = false) :
    ∀ p ∈ scanEntry m e, (Prod.snd p).loaded = false := by
  unfold scanEntry
  split
  · split
    · split
      · exact hmInsert_loaded_false _ _ _ rfl h
      · exact h
    · exact h
  · exact hmInsert_loaded_false _ _ _ rfl h
  · exact h

/-- The fold preserves the all-records-cleared invariant. -/
theorem foldl_loaded_false (l : List DirEntry) (m : List (String × ModelInfo))
    (h : ∀ p ∈ m, (Prod.snd p).loaded = false) :
    ∀ p ∈ l.foldl scanEntry m, (Prod.snd p).loaded = false := by
  induction l generalizing m with
  | nil => exact h
  | cons a t ih => exact ih _ (scanEntry_loaded_false _ _ h)

/-- Every record a scan produces has `loaded = false`. -/
theorem scan_models_loaded_false (fs : Option (List (Option DirEntry)))
    (st : ModelManager) :
    ∀ p ∈ (scan_models fs st).models, (Prod.snd p).loaded = false := by
  cases fs with
  | none => intro p hp; cases hp
  | some entries => exact foldl_loaded_false _ _ (fun p hp => absurd hp (List.not_mem_nil p))

/-- With no stored process, a recorded model and no override,
`run_prompt` starts the recorded model. -/
theorem run_prompt_auto_start (env : SpawnEnv) (prompt : String) (id : String)
    (st : ModelManager) (hp : st.process = none) (hl : st.loaded = some id) :
    run_prompt env prompt none st = spawn_for_model env id st := by
  unfold run_prompt run_prompt_fallback
  rw [hp, hl]

/-- C1: whenever a worker is running (the process slot holds a child), a
`start` call with any model id fails with the already-running error and
returns the manager state — worker handle, loaded-model bookkeeping and
catalog — unchanged, emitting nothing and writing nothing. -/
theorem start_while_running_fails (env : SpawnEnv) (id : String) (st : ModelManager)
    (h : st.process.isSome) :
    spawn_for_model env id st =
      { result := Except.error "A model process is already running",
        state := st, events := [], writes := [] } := by
  unfold spawn_for_model
  simp [h]

/-- Witness for C1 at a concrete running state: `stR` runs `alpha`, and
starting `beta` fails with the already-running error, state unchanged. -/
theorem start_while_running_fails_witness :
    spawn_for_model env0 "beta" stR =
      { result := Except.error "A model process is already running",
        state := stR, events := [], writes := [] } :=
  start_while_running_fails env0 "beta" stR (by rfl)

/-- C4: `stop` fails with the not-running error exactly when the worker
slot is empty; on a running worker with a successful kill it returns
success and clears the slot, and an immediately following `start` (any
model, any oracle) cannot fail with the already-running error. -/
theorem stop_not_running_iff_idle (killErr : Option String) (env : SpawnEnv)
    (st stRun : ModelManager) (id : String) (h : stRun.process.isSome) :
    ((stop_process killErr st).1 = Except.error "No running process" ↔ st.process = none) ∧
    (stop_process none stRun).1 = Except.ok () ∧
    (stop_process none stRun).2 = { stRun with process := none } ∧
    (spawn_for_model env id (stop_process none stRun).2).result ≠
      Except.error "A model process is already running" := by
  rcases Option.isSome_iff_exists.mp h with ⟨c, hc⟩
  refine ⟨?_, ?_, ?_, ?_⟩
  · cases hp : st.process with
    | none =>
      unfold stop_process
      rw [hp]
      simp
    | some c2 =>
      unfold stop_process
      rw [hp]
      cases killErr with
      | none =>
        constructor
        · intro h1
          exact Except.noConfusion h1
        · intro h2
          exact Option.noConfusion h2
      | some e =>
        constructor
        · intro h1
          exact absurd (Except.error.inj h1) (kill_failed_ne_no_running e)
        · intro h2
          exact Option.noConfusion h2
  · unfold stop_process
    rw [hc]
  · unfold stop_process
    rw [hc]
  · apply spawn_result_not_already
    unfold stop_process
    rw [hc]

/-- Witness for C4: on `stR` (worker running) stop succeeds, and the
following start of `alpha` does not report already-running; on `st0`
(idle) the iff reduces to the not-running error. -/
theorem stop_not_running_iff_idle_witness :
    ((stop_process (some "denied") st0).1 = Except.error "No running process" ↔
      st0.process = none) ∧
    (stop_process none stR).1 = Except.ok () ∧
    (spawn_for_model env0 "alpha" (stop_process none stR).2).result ≠
      Except.error "A model process is already running" :=
  ⟨(stop_not_running_iff_idle (some "denied") env0 st0 stR "alpha" (by rfl)).1,
   (stop_not_running_iff_idle (some "denied") env0 st0 stR "alpha" (by rfl)).2.1,
   (stop_not_running_iff_idle (some "denied") env0 st0 stR "alpha" (by rfl)).2.2.2⟩

/-- C5: if `stop` is called on a running worker and the kill itself
fails, the call reports the kill failure but the worker slot is cleared
anyway (`self.process.take()` runs before the kill). -/
theorem failed_stop_still_clears_slot (e : String) (st : ModelManager)
    (h : st.process.isSome) :
    (stop_process (some e) st).1 = Except.error ("Failed to kill process: " ++ e) ∧
    (stop_process (some e) st).2.process = none := by
  rcases Option.isSome_iff_exists.mp h with ⟨c, hc⟩
  unfold stop_process
  rw [hc]
  exact ⟨rfl, rfl⟩

/-- Witness for C5 at the concrete running state `stR`. -/
theorem failed_stop_still_clears_slot_witness :
    (stop_process (some "EPERM") stR).1 =
      Except.error ("Failed to kill process: " ++ "EPERM") ∧
    (stop_process (some "EPERM") stR).2.process = none :=
  failed_stop_still_clears_slot "EPERM" stR (by rfl)

/-- C6: every failing `start` from the idle state returns a typed error
and leaves the manager exactly as it was — the worker slot still empty,
no event emitted, nothing written. -/
theorem failed_start_leaves_idle (env : SpawnEnv) (id : String) (st : ModelManager)
    (h : st.process = none) (hf : (spawn_for_model env id st).result ≠ Except.ok ()) :
    (∃ e, (spawn_for_model env id st).result = Except.error e) ∧
    (spawn_for_model env id st).state = st ∧
    (spawn_for_model env id st).state.process = none ∧
    (spawn_for_model env id st).events = [] ∧
    (spawn_for_model env id st).writes = [] := by
  rcases spawn_state_of_not_ok env id st hf with ⟨hst, hev⟩
  refine ⟨?_, hst, by rw [hst, h], hev, spawn_writes_nil env id st⟩
  cases hr : (spawn_for_model env id st).result with
  | ok u => exact absurd (by rw [hr]) hf
  | error e => exact ⟨e, rfl⟩

/-- Witness for C6: with a failing spawn syscall, starting `alpha` from
the freshly scanned state errs and leaves the state untouched. -/
theorem failed_start_leaves_idle_witness :
    (∃ e, (spawn_for_model envSpawnFail "alpha" st0).result = Except.error e) ∧
    (spawn_for_model envSpawnFail "alpha" st0).state = st0 ∧
    (spawn_for_model envSpawnFail "alpha" st0).state.process = none ∧
    (spawn_for_model envSpawnFail "alpha" st0).events = [] ∧
    (spawn_for_model envSpawnFail "alpha" st0).writes = [] :=
  failed_start_leaves_idle envSpawnFail "alpha" st0 rfl
    (by
      rw [show (spawn_for_model envSpawnFail "alpha" st0).result =
            Except.error ("Failed to spawn child: " ++ "boom") from rfl]
      intro hc
      exact Except.noConfusion hc)

/-- C7: with no worker running, `runPrompt` starts the override model if
given, else the recorded loaded model; with neither it fails with the
no-model-available error; and the prompt text plays no role in this path
(the outcome is prompt-independent and nothing is written to any stdin). -/
theorem run_prompt_idle_choice (env : SpawnEnv) (prompt prompt2 : String)
    (modelOv : Option String) (id : String) (st : ModelManager)
    (h : st.process = none) :
    (modelOv = none → st.loaded = none →
      run_prompt env prompt modelOv st =
        { result := Except.error "no model available to run prompt",
          state := st, events := [], writes := [] }) ∧
    (modelOv = some id → run_prompt env prompt modelOv st = spawn_for_model env id st) ∧
    (modelOv = none → st.loaded = some id →
      run_prompt env prompt modelOv st = spawn_for_model env id st) ∧
    run_prompt env prompt modelOv st = run_prompt env prompt2 modelOv st ∧
    (run_prompt env prompt modelOv st).writes = [] := by
  have hfall : ∀ pr : String, run_prompt env pr modelOv st = run_prompt_fallback env modelOv st := by
    intro pr
    unfold run_prompt
    rw [h]
  refine ⟨?_, ?_, ?_, ?_, ?_⟩
  · intro h1 h2
    rw [hfall prompt, h1]
    unfold run_prompt_fallback
    rw [h2]
  · intro h1
    rw [hfall prompt, h1]
    unfold run_prompt_fallback
    rfl
  · intro h1 h2
    rw [hfall prompt, h1]
    unfold run_prompt_fallback
    rw [h2]
  · rw [hfall prompt, hfall prompt2]
  · rw [hfall prompt]
    unfold run_prompt_fallback
    cases modelOv with
    | some id2 => exact spawn_writes_nil env id2 st
    | none =>
      cases hl : st.loaded with
      | some id2 => exact spawn_writes_nil env id2 st
      | none => rfl

/-- Witness for C7 on the freshly scanned state (no worker, nothing
loaded): no-override fails with the no-model error, an explicit override
starts that model. -/
theorem run_prompt_idle_choice_witness :
    run_prompt env0 "hello" none st0 =
      { result := Except.error "no model available to run prompt",
        state := st0, events := [], writes := [] } ∧
    run_prompt env0 "hello" (some "beta") st0 = spawn_for_model env0 "beta" st0 :=
  ⟨(run_prompt_idle_choice env0 "hello" "other" none "beta" st0 rfl).1 rfl rfl,
   (run_prompt_idle_choice env0 "hello" "other" (some "beta") "beta" st0 rfl).2.1 rfl⟩

/-- C8: after a scan, every surviving regular-file entry with an allowed
extension is in the catalog under its filename-without-extension, every
directory entry under its name; scanning exactly `alpha.gguf` and
`beta/` yields exactly the records with ids `alpha` and `beta`. -/
theorem scan_models_catalog (entries : List (Option DirEntry)) (st stB : ModelManager)
    (e : DirEntry) (ext : String) (he : some e ∈ entries) :
    (e.kind = EntryKind.file → rustExtension e.name = some ext →
      modelExtAllowed ext = true →
      containsKey (scan_models (some entries) st).models (rustFileStem e.name) = true) ∧
    (e.kind = EntryKind.dir →
      containsKey (scan_models (some entries) st).models e.name = true) ∧
    (scan_models (some [some { name := "alpha.gguf", kind := EntryKind.file },
                        some { name := "beta", kind := EntryKind.dir }]) stB).models =
      [("alpha", { id := "alpha", name := "alpha.gguf",
                   path := "./models/alpha.gguf", loaded := false }),
       ("beta", { id := "beta", name := "beta",
                  path := "./models/beta", loaded := false })] := by
  have hmem : e ∈ entries.filterMap (fun x => x) :=
    List.mem_filterMap.mpr ⟨some e, he, rfl⟩
  refine ⟨?_, ?_, rfl⟩
  · intro h1 h2 h3
    exact containsKey_foldl_of_mem _ _ _ _ hmem
      (fun m2 => scanEntry_contains_file m2 e ext h1 h2 h3)
  · intro h1
    exact containsKey_foldl_of_mem _ _ _ _ hmem
      (fun m2 => scanEntry_contains_dir m2 e h1)

/-- Witness for C8: both scenario ids are present in the scanned catalog. -/
theorem scan_models_catalog_witness :
    containsKey (scan_models fs0 st0).models "alpha" = true ∧
    containsKey (scan_models fs0 st0).models "beta" = true :=
  ⟨(scan_models_catalog [some { name := "alpha.gguf", kind := EntryKind.file },
      some { name := "beta", kind := EntryKind.dir }] st0 st0
      { name := "alpha.gguf", kind := EntryKind.file } "gguf"
      (List.Mem.head _)).1 rfl rfl rfl,
   (scan_models_catalog [some { name := "alpha.gguf", kind := EntryKind.file },
      some { name := "beta", kind := EntryKind.dir }] st0 st0
      { name := "beta", kind := EntryKind.dir } "gguf"
      (List.Mem.tail _ (List.Mem.head _))).2.1 rfl⟩

/-- C9: a second scan over the same directory content gives the same
manager state and the same listed snapshot — scanning clears the map
first and rebuilds it from the directory entries alone. -/
theorem rescan_idempotent (fs : Option (List (Option DirEntry))) (st : ModelManager) :
    scan_models fs (scan_models fs st) = scan_models fs st ∧
    list_models (scan_models fs (scan_models fs st)) = list_models (scan_models fs st) := by
  cases fs with
  | none => exact ⟨rfl, rfl⟩
  | some entries => exact ⟨rfl, rfl⟩

/-- C10: a rescan rebuilds every record with `loaded = false` yet keeps
the manager's recorded loaded id, which still drives `runPrompt`'s
auto-start selection when no worker runs and no override is given. -/
theorem rescan_clears_flags_keeps_loaded (fs : Option (List (Option DirEntry)))
    (st : ModelManager) (id : String) (env : SpawnEnv) (prompt : String)
    (h1 : containsKey st.models id = true) (h2 : st.process = none) :
    (∀ m ∈ list_models (scan_models fs (set_loaded st id)), m.loaded = false) ∧
    (scan_models fs (set_loaded st id)).loaded = some id ∧
    run_prompt env prompt none (scan_models fs (set_loaded st id)) =
      spawn_for_model env id (scan_models fs (set_loaded st id)) := by
  have hld : (scan_models fs (set_loaded st id)).loaded = some id := by
    rw [(scan_models_preserves fs (set_loaded st id)).2, set_loaded_loaded st id h1]
  have hpr : (scan_models fs (set_loaded st id)).process = none := by
    rw [(scan_models_preserves fs (set_loaded st id)).1,
      set_loaded_preserves_process st id, h2]
  refine ⟨?_, hld, run_prompt_auto_start env prompt id _ hpr hld⟩
  intro m hm
  unfold list_models at hm
  rcases List.mem_map.mp hm with ⟨p, hp, hpm⟩
  rw [← hpm]
  exact scan_models_loaded_false fs (set_loaded st id) p hp

/-- Witness for C10: load `alpha`, rescan the unchanged directory; every
listed record reports unloaded, the recorded id is still `alpha`, and a
promptless `runPrompt` would start `alpha`. -/
theorem rescan_clears_flags_keeps_loaded_witness :
    (∀ m ∈ list_models (scan_models fs0 (set_loaded st0 "alpha")), m.loaded = false) ∧
    (scan_models fs0 (set_loaded st0 "alpha")).loaded = some "alpha" ∧
    run_prompt env0 "hi" none (scan_models fs0 (set_loaded st0 "alpha")) =
      spawn_for_model env0 "alpha" (scan_models fs0 (set_loaded st0 "alpha")) :=
  rescan_clears_flags_keeps_loaded fs0 st0 "alpha" env0 "hi" rfl rfl

/-- C2 (code bug): after `load_model("alpha")` and a successful
`start_model("alpha")`, the stored child has no stdin handle because
`spawn_for_model` never configures stdin as piped — even though
`run_prompt` tries to write to `child.stdin`. So `runPrompt("hello")`
with a worker running does not behave as `send`: it skips the write
branch, falls through to the start path, and fails with the
already-running error, writing nothing to the worker. -/
theorem run_prompt_while_running_does_not_send :
    (spawn_for_model env0 "alpha" stL).result = Except.ok () ∧
    stR.process = some { stdin := none } ∧
    run_prompt env0 "hello" none stR =
      { result := Except.error "A model process is already running",
        state := stR, events := [], writes := [] } :=
  ⟨rfl, rfl, rfl⟩

/-- C3 counterexample: the claim says the background reader clears the
worker slot when the streams close. At the concrete running state the
reader's completion leaves the slot occupied — the spawned thread holds
no reference to the manager, so the manager never returns to idle. -/
theorem reader_not_clearing_slot_cex :
    (spawn_for_model env0 "alpha" stL).result = Except.ok () ∧
    stR = (spawn_for_model env0 "alpha" stL).state ∧
    (readerCompleteState stR).process ≠ none := by
  refine ⟨rfl, rfl, fun h => ?_⟩
  rw [show (readerCompleteState stR).process = some { stdin := none } from rfl] at h
  exact Option.noConfusion h

/-- C3 amended: per completed worker lifetime the reader emits the
stopped notification exactly once, as the final event, after reporting
every line of both streams — but it does not clear the worker slot: the
manager state is untouched when the reader finishes. -/
theorem reader_stopped_once_after_lines (out err : List String) (st : ModelManager) :
    (readerEvents out err).count (Event.status false) = 1 ∧
    (readerEvents out err).getLast? = some (Event.status false) ∧
    (∀ l, l ∈ out → Event.output l ∈ readerEvents out err) ∧
    (∀ l, l ∈ err → Event.output ("[ERR] " ++ l) ∈ readerEvents out err) ∧
    readerCompleteState st = st := by
  refine ⟨?_, ?_, ?_, ?_, rfl⟩
  · unfold readerEvents
    rw [List.count_append, List.count_append]
    have h1 : (out.map Event.output).count (Event.status false) = 0 := by
      rw [List.count_eq_zero]
      intro hmem
      rcases List.mem_map.mp hmem with ⟨a, _, ha⟩
      exact Event.noConfusion ha
    have h2 : (err.map (fun l => Event.output ("[ERR] " ++ l))).count (Event.status false) = 0 := by
      rw [List.count_eq_zero]
      intro hmem
      rcases List.mem_map.mp hmem with ⟨a, _, ha⟩
      exact Event.noConfusion ha
    rw [h1, h2]
    rfl
  · unfold readerEvents
    exact List.getLast?_concat _
  · intro l hl
    unfold readerEvents
    exact List.mem_append.mpr (Or.inl (List.mem_append.mpr (Or.inl (List.mem_map_of_mem _ hl))))
  · intro l hl
    unfold readerEvents
    exact List.mem_append.mpr (Or.inl (List.mem_append.mpr (Or.inr (List.mem_map_of_mem _ hl))))

/-- Witness for the amended C3 at a concrete pair of streams. -/
theorem reader_stopped_once_after_lines_witness :
    (readerEvents ["TOKEN 0"] ["oops"]).count (Event.status false) = 1 ∧
    Event.output "TOKEN 0" ∈ readerEvents ["TOKEN 0"] ["oops"] ∧
    Event.output ("[ERR] " ++ "oops") ∈ readerEvents ["TOKEN 0"] ["oops"] :=
  ⟨(reader_stopped_once_after_lines ["TOKEN 0"] ["oops"] st0).1,
   (reader_stopped_once_after_lines ["TOKEN 0"] ["oops"] st0).2.2.1 "TOKEN 0" (List.Mem.head _),
   (reader_stopped_once_after_lines ["TOKEN 0"] ["oops"] st0).2.2.2.1 "oops" (List.Mem.head _)⟩
